import Mathlib

/-!
Shallow embedding of `tool_arxiv-db` (src/main.py, src/db.py).

The loader reads a line-delimited JSON file in chunks, filters each chunk
against an accumulating "seen ids" container, explodes the `categories`
column into a child batch with surrogate integer keys, and appends both
batches to a SQLite store via `toSQL`, which retries once on a primary-key
conflict.

Modelling decisions (each is traced to the source line it embeds):

* Python values that flow into frames and the seen-ids container are either
  strings (record ids, text columns), integers (row index labels, surrogate
  keys) or NaN (the result of `Index([]).max()`); they are modelled by `Val`.
* `uniqueIDs: set[str] = {}` (main.py:241) is a *dict* literal, and
  `uniqueIDs |= df["id"]` (main.py:296) updates a dict with a pandas Series,
  which is treated as a mapping keyed by the Series' *index labels*.  The
  model keeps the dict as an insertion-ordered association list
  `List (Val × Val)`; `isin(values=uniqueIDs)` (main.py:262) iterates the
  dict, i.e. tests membership among its keys.
* `pandas.read_json(..., lines=True, chunksize=n)` yields chunks of up to
  `n` records in order with a continuing RangeIndex; modelled by `List.enum`
  followed by `chunksOf`.
* `x.str.split(" ")` (main.py:104) is Python `str.split(" ")`: split at
  every single space character, keeping empty pieces (`"" ↦ [""]`);
  modelled by `pySplitSpace` on the character list.
* The eleven document attributes other than `id` that survive
  `df.drop(columns=["categories", "versions", "authors_parsed"])`
  (main.py:283) are never inspected individually by the program, so the
  model carries them as the single opaque field `Record.doc`.
* `DataFrame.to_sql(..., if_exists="append")` executes one transactional
  multi-row INSERT: it either appends every row or raises IntegrityError
  and leaves the table unchanged; a primary-key violation (duplicate key
  in the batch or against the stored table, or a missing key value) is the
  IntegrityError case (`sqlAppend` returning `none`).
* A stored SQL row is an association list of column name to value; the
  primary key of both tables is column `"id"` (db.py:374, db.py:383).
-/

namespace ArxivDB

/-- A Python value flowing through the pipeline: a string, an integer
(numpy int64 row labels and surrogate keys), or NaN (float `nan`, produced
by `Index([]).max()`). -/
inductive Val where
  | vs : String → Val
  | vi : Int → Val
  | vnan : Val
deriving DecidableEq, Repr

/-- One parsed input line.  `id` and `categories` are the fields the loader
inspects; `versions` and `authorsParsed` are read then dropped
(main.py:283); `doc` stands for the eleven remaining document attributes
(authors, submitter, title, ..., update_date), which the loader forwards
untouched. -/
structure Record where
  id : String
  categories : String
  versions : String
  authorsParsed : String
  doc : String
deriving DecidableEq, Repr

/-- Convenience constructor for concrete test records. -/
def mkRec (i c : String) : Record :=
  { id := i, categories := c, versions := "v", authorsParsed := "ap", doc := "d" }

/-- One row of the in-flight categories frame after
`explodeColumn`/`rename`/`index += offset` (main.py:264-277): surrogate key
(`none` models a NaN index value), `arxiv_id`, `category`. -/
structure CatRow where
  id : Option Int
  arxiv_id : String
  category : String
deriving DecidableEq, Repr

/-- A stored SQL row: column name to value, in column order. -/
def Row : Type := List (String × Val)

instance : DecidableEq Row := inferInstanceAs (DecidableEq (List (String × Val)))

/-- The SQLite store: the two relations created by `DB.createTables`
(db.py:360-390), each a list of rows in insertion order. -/
structure Store where
  documents : List Row
  categories : List Row
deriving DecidableEq

/-- The two relations (db.py:360, db.py:377). -/
inductive Table where
  | documents
  | categories
deriving DecidableEq, Repr

/-- The exceptions the modelled code can raise. -/
inductive PyErr where
  | integrityError
  | keyError : String → PyErr
  | fileNotFoundError
  | fileExistsError
  | valueError
deriving DecidableEq, Repr

/-! ### Python `str.split` -/

/-- Split a character list at every single space character, keeping empty
pieces: the semantics of Python `"s".split(" ")` (main.py:104).
`[] ↦ [[]]`, `"a  b" ↦ ["a", "", "b"]`. -/
def splitSpaceChars : List Char → List (List Char)
  | [] => [[]]
  | c :: rest =>
    if c = ' ' then [] :: splitSpaceChars rest
    else
      match splitSpaceChars rest with
      | [] => [[c]]
      | g :: gs => (c :: g) :: gs

/-- Python `s.split(" ")` on strings. -/
def pySplitSpace (s : String) : List String :=
  (splitSpaceChars s.data).map List.asString

/-- Split a character list at every whitespace character and drop the empty
pieces: the semantics of Python `"s".split()` (no argument), i.e. genuine
whitespace-splitting as the specification words it. -/
def splitWhitespaceChars : List Char → List (List Char)
  | [] => [[]]
  | c :: rest =>
    if c.isWhitespace then [] :: splitWhitespaceChars rest
    else
      match splitWhitespaceChars rest with
      | [] => [[c]]
      | g :: gs => (c :: g) :: gs

/-- Whitespace-splitting as the specification describes it (Python
`s.split()`): split on whitespace, no empty tags. -/
def pySplitWhitespace (s : String) : List String :=
  ((splitWhitespaceChars s.data).filter fun g => !g.isEmpty).map List.asString

/-! ### The seen-ids container (main.py:241, 262, 296) -/

/-- Python `k in d` for the dict: membership among keys. -/
def dictHasKey (d : List (Val × Val)) (k : Val) : Bool :=
  d.any fun p => p.1 == k

/-- `d[k] = v`: replace the value at an existing key, else append. -/
def dictInsert (d : List (Val × Val)) (k v : Val) : List (Val × Val) :=
  if dictHasKey d k then d.map fun p => if p.1 == k then (k, v) else p
  else d ++ [(k, v)]

/-- `uniqueIDs |= df["id"]` (main.py:296): dict-update with a pandas
Series, i.e. insert `(index label, id value)` pairs in row order. -/
def dictUpdate (d : List (Val × Val)) (kvs : List (Val × Val)) : List (Val × Val) :=
  kvs.foldl (fun acc p => dictInsert acc p.1 p.2) d

/-! ### Batch transform (main.py:64-109, 264-277) -/

/-- `df[["id", "categories"]]` (main.py:265). -/
def selectIdCategories (rs : List Record) : List (String × String) :=
  rs.map fun r => (r.id, r.categories)

/-- `DataFrame.explode(column=...)` after the split (main.py:105): one
output row per list element, keeping the index pairing.  (pandas maps an
*empty* list to a single NaN row; `str.split(" ")` never returns an empty
list — `splitSpaceChars_ne_nil` below — so that case cannot arise.) -/
def explodeLists : List (String × List String) → List (String × String)
  | [] => []
  | (i, ts) :: rest => (ts.map fun t => (i, t)) ++ explodeLists rest

/-- `explodeColumn` (main.py:64-109): `set_index("id")`, apply
`str.split(" ")` to the remaining `categories` column, `explode`,
`reset_index` (the new RangeIndex is implicit in list order). -/
def explodeColumn (rows : List (String × String)) : List (String × String) :=
  explodeLists (rows.map fun p => (p.1, pySplitSpace p.2))

/-- The categories frame of one batch (main.py:264-277): explode, rename
`id → arxiv_id`, `categories → category`, name the RangeIndex `id` and add
`previousCategoriesDFMaxIndex` to it.  An offset of `none` (NaN) makes
every surrogate key NaN. -/
def mkCategoriesDF (offset : Option Int) (rs : List Record) : List CatRow :=
  (explodeColumn (selectIdCategories rs)).enum.map fun p =>
    { id := offset.map fun z => z + (p.1 : Int),
      arxiv_id := p.2.1,
      category := p.2.2 }

/-- `categoriesDF.index.max() + 1` (main.py:297): `Index([]).max()` is NaN
(`none`), and NaN propagates through `+ 1`. -/
def nextOffset (cats : List CatRow) : Option Int :=
  ((cats.filterMap CatRow.id).max?).map fun z => z + 1

/-! ### Frames handed to `toSQL` -/

/-- A pandas DataFrame as `toSQL` sees it: named columns, a row index
(integer labels, possibly NaN), and row-major cells. -/
structure DFrame where
  colNames : List String
  index : List (Option Int)
  cells : List (List Val)
deriving DecidableEq

/-- The documents frame of one batch: the surviving rows after
`df.drop(columns=["categories", "versions", "authors_parsed"])`
(main.py:283-286), keeping their reader-assigned index labels. -/
def docsFrame (surv : List (Nat × Record)) : DFrame :=
  { colNames := ["id", "doc"],
    index := surv.map fun p => some (p.1 : Int),
    cells := surv.map fun p => [Val.vs p.2.id, Val.vs p.2.doc] }

/-- The categories frame handed to `toSQL` (main.py:289-294): columns
`arxiv_id`, `category`; the surrogate keys are the *index*, named `id`. -/
def catsFrame (cats : List CatRow) : DFrame :=
  { colNames := ["arxiv_id", "category"],
    index := cats.map CatRow.id,
    cells := cats.map fun c => [Val.vs c.arxiv_id, Val.vs c.category] }

/-- An index label as a SQL value (NaN index values become NaN cells). -/
def valOfIndex : Option Int → Val
  | some n => Val.vi n
  | none => Val.vnan

/-- `DataFrame.to_sql(..., index=includeIndex, index_label="id")`
materialisation (main.py:157-163, 172-177): with the index, each row gains
a leading `("id", label)` column. -/
def materialize (df : DFrame) (includeIndex : Bool) : List Row :=
  if includeIndex then
    (df.index.zip df.cells).map fun p => ("id", valOfIndex p.1) :: df.colNames.zip p.2
  else
    df.cells.map fun c => df.colNames.zip c

/-- `df[c]` (main.py:170): a column lookup, `KeyError` when `c` is not a
column (the frame's *index* is not a column). -/
def getColumn (df : DFrame) (c : String) : Except PyErr (List Val) :=
  match df.colNames.findIdx? fun n => n == c with
  | none => Except.error (PyErr.keyError c)
  | some i => Except.ok (df.cells.map fun row => row.getD i Val.vnan)

/-! ### The store and `toSQL` (main.py:112-177) -/

/-- The rows of one relation. -/
def tableRows (s : Store) : Table → List Row
  | Table.documents => s.documents
  | Table.categories => s.categories

/-- Replace the rows of one relation. -/
def setTable (s : Store) (t : Table) (rows : List Row) : Store :=
  match t with
  | Table.documents => { s with documents := rows }
  | Table.categories => { s with categories := rows }

/-- The primary-key value of a stored row: both tables declare
`PrimaryKeyConstraint("id")` (db.py:374, db.py:383). -/
def rowPk (r : Row) : Option Val :=
  List.lookup "id" r

/-- `SELECT id FROM {table}` (main.py:165-168). -/
def existingIds (s : Store) (t : Table) : List Val :=
  (tableRows s t).filterMap rowPk

/-- One transactional multi-row INSERT (`to_sql(..., if_exists="append")`):
succeeds, appending every row, iff every row carries a primary-key value,
the keys are pairwise distinct and none is already stored; otherwise
IntegrityError is raised and the table is unchanged (`none`). -/
def sqlAppend (s : Store) (t : Table) (rows : List Row) : Option Store :=
  if (∀ r ∈ rows, (rowPk r).isSome = true)
      ∧ (rows.filterMap rowPk).Nodup
      ∧ (∀ v ∈ rows.filterMap rowPk, v ∉ existingIds s t)
  then some (setTable s t (tableRows s t ++ rows))
  else none

/-- `toSQL` (main.py:112-177): bulk append; on IntegrityError, read the
stored ids, filter the frame by `~df["id"].isin(existing)` and append the
remainder with `index=False`; an error from the retry propagates.
Returns the store after the call and the propagated exception, if any. -/
def toSQL (t : Table) (df : DFrame) (s : Store) (includeIndex : Bool) :
    Store × Option PyErr :=
  match sqlAppend s t (materialize df includeIndex) with
  | some s2 => (s2, none)
  | none =>
    match getColumn df "id" with
    | Except.error e => (s, some e)
    | Except.ok ids =>
      match sqlAppend s t (materialize
          { colNames := df.colNames,
            index := (((df.index.zip df.cells).zip ids).filter
                fun p => !(existingIds s t).contains p.2).map fun p => p.1.1,
            cells := (((df.index.zip df.cells).zip ids).filter
                fun p => !(existingIds s t).contains p.2).map fun p => p.1.2 }
          false) with
      | some s2 => (s2, none)
      | none => (s, some PyErr.integrityError)

/-! ### The run driver (main.py:206-299) -/

/-- The mutable state of the processing loop: the store behind `db`, the
`uniqueIDs` dict and `previousCategoriesDFMaxIndex` (`none` models NaN). -/
structure RunState where
  store : Store
  uniqueIDs : List (Val × Val)
  offset : Option Int
deriving DecidableEq

/-- One iteration of the chunk loop (main.py:261-299): filter by
`~isin(uniqueIDs)`, build the categories frame, write documents then
categories, then update the dict and the offset.  An exception from either
write aborts the iteration before the state updates. -/
def processChunk (st : RunState) (chunk : List (Nat × Record)) :
    RunState × Option PyErr :=
  let surviving := chunk.filter fun p => !dictHasKey st.uniqueIDs (Val.vs p.2.id)
  let cats := mkCategoriesDF st.offset (surviving.map Prod.snd)
  match toSQL Table.documents (docsFrame surviving) st.store false with
  | (s1, some e) => ({ st with store := s1 }, some e)
  | (s1, none) =>
    match toSQL Table.categories (catsFrame cats) s1 true with
    | (s2, some e) => ({ st with store := s2 }, some e)
    | (s2, none) =>
      ({ store := s2,
         uniqueIDs := dictUpdate st.uniqueIDs
           (surviving.map fun p => (Val.vi (p.1 : Int), Val.vs p.2.id)),
         offset := nextOffset cats }, none)

/-- The chunk loop: process chunks in order, stopping at the first
exception (which aborts the run). -/
def runLoop : RunState → List (List (Nat × Record)) → RunState × Option PyErr
  | st, [] => (st, none)
  | st, c :: rest =>
    match processChunk st c with
    | (st2, none) => runLoop st2 rest
    | (st2, some e) => (st2, some e)

/-- Fuel-driven chunking; the fuel is an upper bound on the number of
chunks (the list's length suffices since every chunk is nonempty). -/
def chunksOfAux (n : Nat) : Nat → List α → List (List α)
  | _, [] => []
  | 0, _ :: _ => []
  | fuel + 1, x :: xs => (x :: xs.take (n - 1)) :: chunksOfAux n fuel (xs.drop (n - 1))

/-- `read_json(..., lines=True, chunksize=n)` (main.py:253-257): consecutive
chunks of up to `n` records; every yielded chunk is nonempty. -/
def chunksOf (n : Nat) (l : List α) : List (List α) :=
  chunksOfAux n l.length l

/-- `main` (main.py:206-299).  `inputIsFile` and `outputIsFile` are the
results of the two `isFile` precondition probes; the body models the
pipeline on the parsed record list.  `Except.error` is a failure *before*
the destination store is created; `Except.ok (store, some e)` is a run that
created the store and aborted with `e`; `Except.ok (store, none)` completed. -/
def main (inputIsFile outputIsFile : Bool) (chunkSize : Int)
    (input : List Record) : Except PyErr (Store × Option PyErr) :=
  if inputIsFile = false then Except.error PyErr.fileNotFoundError
  else if outputIsFile = true then Except.error PyErr.fileExistsError
  else if chunkSize < 1 then Except.error PyErr.valueError
  else
    let r := runLoop { store := { documents := [], categories := [] },
                       uniqueIDs := [], offset := some 0 }
               (chunksOf chunkSize.toNat input.enum)
    Except.ok (r.1.store, r.2)

/-! ### Specification-side definitions (the claims' words, for comparison) -/

/-- Surrogate keys "assigned sequentially starting at the given offset, in
the order records and tags appear" (spec §4.3), as a counter-threading
recursion over (arxiv_id, tag) pairs. -/
def assignIds (z : Int) : List (String × String) → List CatRow
  | [] => []
  | p :: rest =>
    { id := some z, arxiv_id := p.1, category := p.2 } :: assignIds (z + 1) rest

/-- The (record id, tag) pairs of a batch in input order, for a given
splitting function. -/
def specTagPairs (split : String → List String) : List Record → List (String × String)
  | [] => []
  | r :: rs => ((split r.categories).map fun t => (r.id, t)) ++ specTagPairs split rs

/-- The Category batch as the specification words it, parameterised by the
splitting function: one row per tag of each surviving record, sequential
surrogate keys from the offset. -/
def specCategoryRows (split : String → List String) (z : Int) (rs : List Record) :
    List CatRow :=
  assignIds z (specTagPairs split rs)

/-! ### Helper notions used by the theorems -/

/-- The stored surrogate keys of the Category relation, in insertion order. -/
def catIds (s : Store) : List Val :=
  existingIds s Table.categories

/-- `seqIds z n = [z, z+1, ..., z+n-1]`. -/
def seqIds (z : Int) : Nat → List Int
  | 0 => []
  | n + 1 => z :: seqIds (z + 1) n

/-- Strict order on integer `Val`s (both values are integers and the first
is smaller). -/
def viLt (a b : Val) : Prop :=
  ∃ m n : Int, a = Val.vi m ∧ b = Val.vi n ∧ m < n

/-- The materialised SQL row of one surviving record (`index=False`). -/
def docRowOf (p : Nat × Record) : Row :=
  [("id", Val.vs p.2.id), ("doc", Val.vs p.2.doc)]

/-- The materialised SQL row of one category row (`index=True`,
`index_label="id"`). -/
def catRowOf (c : CatRow) : Row :=
  [("id", valOfIndex c.id), ("arxiv_id", Val.vs c.arxiv_id), ("category", Val.vs c.category)]

/-- Every key of the seen-ids dict is an integer (a row index label). -/
def GoodDict (d : List (Val × Val)) : Prop :=
  ∀ p ∈ d, ∃ n : Int, p.1 = Val.vi n

/-- The loop invariant tying the run state to the number `c` of Category
rows written so far: the offset is `c`, the stored surrogate keys are
exactly `0, ..., c-1` in order, and the seen-ids dict is keyed by integer
row labels. -/
def Inv (st : RunState) (c : Nat) : Prop :=
  st.offset = some (c : Int)
    ∧ catIds st.store = (seqIds 0 c).map Val.vi
    ∧ GoodDict st.uniqueIDs

/-! ## Lemmas about the transform -/

/-- Python `s.split(sep)` never returns an empty list. -/
theorem splitSpaceChars_ne_nil (cs : List Char) : splitSpaceChars cs ≠ [] := by
  cases cs with
  | nil => simp [splitSpaceChars]
  | cons c rest =>
    simp only [splitSpaceChars]
    split
    · simp
    · split <;> simp

theorem pySplitSpace_ne_nil (s : String) : pySplitSpace s ≠ [] := by
  simpa [pySplitSpace] using splitSpaceChars_ne_nil s.data

/-- The exploded (id, tag) pairs are exactly the specification's tag pairs
for the single-space splitter. -/
theorem explodeColumn_selectIdCategories (rs : List Record) :
    explodeColumn (selectIdCategories rs) = specTagPairs pySplitSpace rs := by
  induction rs with
  | nil => rfl
  | cons r rest ih =>
    simp only [explodeColumn, selectIdCategories, List.map_cons, explodeLists,
      specTagPairs, List.append_cancel_left_eq]
    simpa [explodeColumn, selectIdCategories] using ih

/-- Adding an offset to the enumeration indices is sequential assignment. -/
theorem enumFrom_map_assignIds (l : List (String × String)) :
    ∀ (n : Nat) (z : Int),
      ((l.enumFrom n).map fun p =>
          CatRow.mk (some (z + (p.1 : Int))) p.2.1 p.2.2) = assignIds (z + n) l := by
  induction l with
  | nil => intro n z; rfl
  | cons p rest ih =>
    intro n z
    simp only [List.enumFrom, List.map_cons, assignIds]
    rw [ih (n + 1) z]
    congr 2
    push_cast
    ring

theorem mkCategoriesDF_eq_assignIds (z : Int) (rs : List Record) :
    mkCategoriesDF (some z) rs = assignIds z (specTagPairs pySplitSpace rs) := by
  have h := enumFrom_map_assignIds (specTagPairs pySplitSpace rs) 0 z
  simp only [Nat.cast_zero, add_zero] at h
  rw [mkCategoriesDF, explodeColumn_selectIdCategories, List.enum]
  rw [← h]
  rfl

theorem assignIds_length (z : Int) (l : List (String × String)) :
    (assignIds z l).length = l.length := by
  induction l generalizing z with
  | nil => rfl
  | cons p rest ih => simp [assignIds, ih]

theorem assignIds_filterMap_id (z : Int) (l : List (String × String)) :
    (assignIds z l).filterMap CatRow.id = seqIds z l.length := by
  induction l generalizing z with
  | nil => rfl
  | cons p rest ih => simp [assignIds, seqIds, List.filterMap_cons, ih]

theorem specTagPairs_length (split : String → List String) (rs : List Record) :
    (specTagPairs split rs).length = (rs.map fun r => (split r.categories).length).sum := by
  induction rs with
  | nil => rfl
  | cons r rest ih => simp [specTagPairs, ih]

/-- C3 (counterexample): on the record `{id := "a", categories := "a  b"}`
the produced Category batch is not the batch described by the claim's
whitespace-splitting: the code splits on every single space, so the double
space yields a third row whose `category` is the empty string. -/
theorem C3_whitespace_refuted :
    mkCategoriesDF (some 0) [mkRec "a" "a  b"]
      ≠ specCategoryRows pySplitWhitespace 0 [mkRec "a" "a  b"] := by
  decide

/-- C3 (amended): for every surviving batch and integer offset, the
transform splits each record's category field at every single space
character (Python `str.split(" ")`, so consecutive, leading or trailing
spaces yield empty-string tags) and emits, per tag, one Category row with
`arxiv_id` the record's id, `category` the tag, and surrogate ids assigned
sequentially from the offset in input order. -/
theorem C3_space_split_transform (z : Int) (rs : List Record) :
    mkCategoriesDF (some z) rs = specCategoryRows pySplitSpace z rs := by
  rw [mkCategoriesDF_eq_assignIds, specCategoryRows]

/-- C5 (counterexample): on the batch `[{id := "a", categories := "a  b"}]`
the produced Category batch has 3 rows, while the whitespace-split tag
count of the claim is 2. -/
theorem C5_whitespace_count_refuted :
    (mkCategoriesDF (some 0) [mkRec "a" "a  b"]).length
      ≠ (([mkRec "a" "a  b"].map fun r => (pySplitWhitespace r.categories).length)).sum := by
  decide

/-- C5 (amended): for every input batch, the number of rows in the produced
Category batch equals the sum, over the surviving records, of the number of
pieces obtained by splitting each record's category field at every single
space character (Python `str.split(" ")`). -/
theorem C5_space_count (z : Int) (rs : List Record) :
    (mkCategoriesDF (some z) rs).length
      = ((rs.map fun r => (pySplitSpace r.categories).length)).sum := by
  rw [mkCategoriesDF_eq_assignIds, assignIds_length, specTagPairs_length]

/-! ## Precondition checks and re-runs -/

/-- C8: if the input path is not a file the run fails with
FileNotFoundError; if the output path already exists it fails with
FileExistsError; if the chunk size is below 1 it fails with ValueError
(main.py:232-239, in that order); the three errors are pairwise distinct,
and each failure is an `Except.error`, i.e. it happens before the
destination store is created or written. -/
theorem C8_preconditions :
    (∀ (out : Bool) (cs : Int) (input : List Record),
        main false out cs input = Except.error PyErr.fileNotFoundError)
      ∧ (∀ (cs : Int) (input : List Record),
          main true true cs input = Except.error PyErr.fileExistsError)
      ∧ (∀ (cs : Int) (input : List Record), cs < 1 →
          main true false cs input = Except.error PyErr.valueError)
      ∧ (PyErr.fileNotFoundError ≠ PyErr.fileExistsError
          ∧ PyErr.fileNotFoundError ≠ PyErr.valueError
          ∧ PyErr.fileExistsError ≠ PyErr.valueError) := by
  refine ⟨fun out cs input => rfl, fun cs input => rfl, fun cs input h => ?_, by decide⟩
  simp [main, h]

/-- C8 (witness): chunk size 0 is rejected with ValueError. -/
theorem C8_preconditions_witness :
    (0 : Int) < 1 ∧ main true false 0 [] = Except.error PyErr.valueError :=
  ⟨by decide, C8_preconditions.2.2.1 0 [] (by decide)⟩

/-- C1 (counterexample): on the one-record input `{id := "a",
categories := "x"}` the first run succeeds and writes one Document row and
one Category row, but the second invocation against the now-existing
destination returns FileExistsError — no "second full load" is ever
performed, contrary to the claim's premise that re-running replays the
load through the writer's conflict handling. -/
theorem C1_second_run_refused :
    main true false 1 [mkRec "a" "x"]
        = Except.ok ({ documents := [[("id", Val.vs "a"), ("doc", Val.vs "d")]],
                       categories := [[("id", Val.vi 0), ("arxiv_id", Val.vs "a"),
                                       ("category", Val.vs "x")]] }, none)
      ∧ main true true 1 [mkRec "a" "x"] = Except.error PyErr.fileExistsError :=
  ⟨rfl, rfl⟩

/-- C1 (amended): a second run against the same destination fails with
FileExistsError at the output precondition check, before the destination
store is opened or written, so the Document and Category relations are left
with exactly the rows of the first run; the claimed replay through the
Upsert Writer's conflict handling never happens. -/
theorem C1_rerun_fails_before_write (cs : Int) (input : List Record) :
    main true true cs input = Except.error PyErr.fileExistsError := rfl

/-! ## The broken seen-set (uniqueIDs is a dict keyed by row labels) -/

/-- C2 (code_bug): with chunk size 1 and two input records sharing id
`"a"`, the second-batch record is *not* removed by the batch filter
(`uniqueIDs` is a dict keyed by the integer row labels of earlier batches,
never by the string ids), the run completes, and the duplicate's category
row is re-inserted: the Category relation ends with two rows whose
`arxiv_id` is `"a"` (the Document relation is saved only by the writer's
conflict retry). -/
theorem C2_duplicate_reinserted :
    main true false 1 [mkRec "a" "x", mkRec "a" "x"]
      = Except.ok ({ documents := [[("id", Val.vs "a"), ("doc", Val.vs "d")]],
                     categories :=
                       [[("id", Val.vi 0), ("arxiv_id", Val.vs "a"), ("category", Val.vs "x")],
                        [("id", Val.vi 1), ("arxiv_id", Val.vs "a"), ("category", Val.vs "x")]] },
                   none) := rfl

/-! ## The writer's retry on the categories relation -/

/-- C4 (code_bug): when the bulk append of a categories batch hits a
primary-key conflict (surrogate id 0 already stored), the retry evaluates
`df["id"]`, but the surrogate key of the categories frame is its *index*,
not a column, so the writer raises KeyError("id") instead of filtering the
conflicting keys and performing the second append (and that second append
would drop the key column anyway, being issued with `index=False`). -/
theorem C4_categories_retry_keyerror :
    toSQL Table.categories (catsFrame [{ id := some 0, arxiv_id := "b", category := "y" }])
        { documents := [],
          categories := [[("id", Val.vi 0), ("arxiv_id", Val.vs "a"), ("category", Val.vs "x")]] }
        true
      = ({ documents := [],
           categories := [[("id", Val.vi 0), ("arxiv_id", Val.vs "a"), ("category", Val.vs "x")]] },
         some (PyErr.keyError "id")) := rfl

/-! ## Empty surviving batch -/

/-- C6 (code_bug): a batch with no surviving records yields empty document
and category batches, but the surrogate offset passed to the next batch is
*not* unchanged: `categoriesDF.index.max() + 1` on the empty index is NaN
(modelled `none`), replacing the previous offset (here `some 5`). -/
theorem C6_empty_batch_offset_nan :
    mkCategoriesDF (some 5) [] = []
      ∧ docsFrame [] = { colNames := ["id", "doc"], index := [], cells := [] }
      ∧ processChunk { store := { documents := [], categories := [] },
                       uniqueIDs := [], offset := some 5 } []
          = ({ store := { documents := [], categories := [] },
               uniqueIDs := [], offset := none }, none) :=
  ⟨rfl, rfl, rfl⟩

/-! ## Within-batch duplicates -/

/-- C10 (counterexample): with chunk size 2 and input ids
`a, b, a, a`, the second batch contains two records with the same id `"a"`,
which is *already stored* by the first batch; the writer's retry filters
against the stored keys and so removes *both* copies, the reduced second
append succeeds, and the run completes instead of aborting — refuting the
claim that the duplicate-key failure always propagates and aborts the
run. -/
theorem C10_stored_duplicate_no_abort :
    main true false 2 [mkRec "a" "x", mkRec "b" "x", mkRec "a" "x", mkRec "a" "x"]
      = Except.ok ({ documents := [[("id", Val.vs "a"), ("doc", Val.vs "d")],
                                   [("id", Val.vs "b"), ("doc", Val.vs "d")]],
                     categories :=
                       [[("id", Val.vi 0), ("arxiv_id", Val.vs "a"), ("category", Val.vs "x")],
                        [("id", Val.vi 1), ("arxiv_id", Val.vs "b"), ("category", Val.vs "x")],
                        [("id", Val.vi 2), ("arxiv_id", Val.vs "a"), ("category", Val.vs "x")],
                        [("id", Val.vi 3), ("arxiv_id", Val.vs "a"), ("category", Val.vs "x")]] },
                   none) := rfl

/-! ## The documents writer in general -/

theorem materialize_docsFrame (surv : List (Nat × Record)) :
    materialize (docsFrame surv) false = surv.map docRowOf := by
  simp only [materialize, docsFrame, if_neg Bool.false_ne_true, List.map_map]
  rfl

theorem getColumn_docsFrame_id (surv : List (Nat × Record)) :
    getColumn (docsFrame surv) "id" = Except.ok (surv.map fun p => Val.vs p.2.id) := by
  have h : (["id", "doc"].findIdx? fun n => n == "id") = some 0 := rfl
  simp only [getColumn, docsFrame, h, List.map_map]
  rfl

theorem filterMap_rowPk_docRows (l : List (Nat × Record)) :
    (l.map docRowOf).filterMap rowPk = l.map fun p => Val.vs p.2.id := by
  induction l with
  | nil => rfl
  | cons p rest ih => simp [docRowOf, rowPk, List.filterMap_cons, ih, List.lookup]

/-- `toSQL` on a documents frame, rephrased over the record batch: bulk
append, and on conflict a single retry with the records whose ids are not
yet stored. -/
theorem toSQL_docsFrame (surv : List (Nat × Record)) (s : Store) :
    toSQL Table.documents (docsFrame surv) s false
      = match sqlAppend s Table.documents (surv.map docRowOf) with
        | some s2 => (s2, none)
        | none =>
          match sqlAppend s Table.documents
              ((surv.filter fun p =>
                  !(existingIds s Table.documents).contains (Val.vs p.2.id)).map docRowOf) with
          | some s2 => (s2, none)
          | none => (s, some PyErr.integrityError) := by
  rw [toSQL, materialize_docsFrame, getColumn_docsFrame_id]
  cases sqlAppend s Table.documents (surv.map docRowOf) with
  | some s2 => rfl
  | none =>
    simp only [docsFrame, List.zip_map', List.filter_map]
    have hkept :
        (surv.filter ((fun p => !(existingIds s Table.documents).contains p.2) ∘
            fun p => (((p.1 : Int) |> some, [Val.vs p.2.id, Val.vs p.2.doc]), Val.vs p.2.id)))
          = surv.filter fun p =>
              !(existingIds s Table.documents).contains (Val.vs p.2.id) := rfl
    rw [hkept]
    have hmat :
        materialize
            { colNames := ["id", "doc"],
              index := ((surv.filter fun p =>
                  !(existingIds s Table.documents).contains (Val.vs p.2.id)).map
                    fun p => (((p.1 : Int) |> some, [Val.vs p.2.id, Val.vs p.2.doc]),
                      Val.vs p.2.id)).map fun p => p.1.1,
              cells := ((surv.filter fun p =>
                  !(existingIds s Table.documents).contains (Val.vs p.2.id)).map
                    fun p => (((p.1 : Int) |> some, [Val.vs p.2.id, Val.vs p.2.doc]),
                      Val.vs p.2.id)).map fun p => p.1.2 }
            false
          = (surv.filter fun p =>
              !(existingIds s Table.documents).contains (Val.vs p.2.id)).map docRowOf := by
      simp only [materialize, if_neg Bool.false_ne_true, List.map_map]
      rfl
    rw [hmat]

theorem sqlAppend_some (s : Store) (t : Table) (rows : List Row) (s2 : Store)
    (h : sqlAppend s t rows = some s2) :
    s2 = setTable s t (tableRows s t ++ rows)
      ∧ ∀ v ∈ rows.filterMap rowPk, v ∉ existingIds s t := by
  unfold sqlAppend at h
  split at h
  next hc => exact ⟨(Option.some.injEq _ _ ▸ h).symm, hc.2.2⟩
  next => exact absurd h (by simp)

theorem sqlAppend_not_nodup (s : Store) (t : Table) (rows : List Row)
    (h : ¬ (rows.filterMap rowPk).Nodup) : sqlAppend s t rows = none := by
  unfold sqlAppend
  rw [if_neg]
  intro hc
  exact h hc.2.1

/-- C9: appending a documents batch never updates or deletes stored rows
and never double-inserts a stored key: whatever the outcome (first append,
retry, or propagated error), the documents relation afterwards is exactly
the old relation extended by rows whose primary keys were not stored
before the call, and the categories relation is untouched. -/
theorem C9_documents_append_only (surv : List (Nat × Record)) (s : Store) :
    ∃ added : List Row,
      ((toSQL Table.documents (docsFrame surv) s false).1).documents
          = s.documents ++ added
        ∧ (∀ v ∈ added.filterMap rowPk, v ∉ existingIds s Table.documents)
        ∧ ((toSQL Table.documents (docsFrame surv) s false).1).categories
            = s.categories := by
  rw [toSQL_docsFrame]
  cases h1 : sqlAppend s Table.documents (surv.map docRowOf) with
  | some s2 =>
    obtain ⟨hs2, hfresh⟩ := sqlAppend_some s Table.documents _ s2 h1
    exact ⟨surv.map docRowOf, by rw [hs2]; rfl, hfresh, by rw [hs2]; rfl⟩
  | none =>
    cases h2 : sqlAppend s Table.documents
        ((surv.filter fun p =>
            !(existingIds s Table.documents).contains (Val.vs p.2.id)).map docRowOf) with
    | some s2 =>
      obtain ⟨hs2, hfresh⟩ := sqlAppend_some s Table.documents _ s2 h2
      exact ⟨_, by rw [hs2]; rfl, hfresh, by rw [hs2]; rfl⟩
    | none => exact ⟨[], by simp, by simp, rfl⟩

/-- The batch filter keeps every record whenever every key of the seen-ids
dict is an integer (which is always the case: the keys are row index
labels), since a string id is never equal to an integer label. -/
theorem goodDict_filter_all (d : List (Val × Val)) (chunk : List (Nat × Record))
    (hd : ∀ p ∈ d, ∃ n : Int, p.1 = Val.vi n) :
    (chunk.filter fun p => !dictHasKey d (Val.vs p.2.id)) = chunk := by
  apply List.filter_eq_self.mpr
  intro a _
  simp only [dictHasKey, Bool.not_eq_eq_eq_not, Bool.not_true, List.any_eq_false]
  intro p hp
  obtain ⟨n, hn⟩ := hd p hp
  simp [hn]

/-- C10 (amended): within a single batch, duplicate primary keys are not
deduplicated. The batch filter removes nothing (its seen-dict keys are
integer row labels, never string ids), so a batch with two records sharing
an id passes both to the writer. If that id is not yet stored, the bulk
append and the retry (which filters only against stored keys, keeping both
copies) each fail, and IntegrityError propagates with the store unchanged,
aborting the run. (If the duplicated id is already stored, the retry
removes both copies and the run continues.) -/
theorem C10_fresh_duplicate_aborts :
    (∀ (d : List (Val × Val)) (chunk : List (Nat × Record)),
        (∀ p ∈ d, ∃ n : Int, p.1 = Val.vi n) →
        (chunk.filter fun p => !dictHasKey d (Val.vs p.2.id)) = chunk)
      ∧ ∀ (s : Store) (pre mid post : List (Nat × Record)) (a b : Nat × Record),
          a.2.id = b.2.id →
          Val.vs a.2.id ∉ existingIds s Table.documents →
          toSQL Table.documents (docsFrame (pre ++ a :: (mid ++ b :: post))) s false
            = (s, some PyErr.integrityError) := by
  refine ⟨goodDict_filter_all, ?_⟩
  intro s pre mid post a b hid hfresh
  rw [toSQL_docsFrame]
  have hnodup : ∀ l1 l2 l3 : List (Nat × Record),
      ¬ (((l1 ++ a :: (l2 ++ b :: l3)).map docRowOf).filterMap rowPk).Nodup := by
    intro l1 l2 l3 hnod
    rw [filterMap_rowPk_docRows] at hnod
    simp only [List.map_append, List.map_cons] at hnod
    rcases List.nodup_append.mp hnod with ⟨-, h2, -⟩
    rcases List.nodup_cons.mp h2 with ⟨h3, -⟩
    apply h3
    rw [hid]
    exact List.mem_append_right _ (List.mem_cons_self _ _)
  rw [sqlAppend_not_nodup s Table.documents _ (hnodup pre mid post)]
  have hfa : Val.vs a.2.id ∉ existingIds s Table.documents := hfresh
  have hfb : Val.vs b.2.id ∉ existingIds s Table.documents := by
    rw [← hid]; exact hfresh
  have hfilter :
      ((pre ++ a :: (mid ++ b :: post)).filter fun p =>
          !(existingIds s Table.documents).contains (Val.vs p.2.id))
        = (pre.filter fun p => !(existingIds s Table.documents).contains (Val.vs p.2.id))
            ++ a :: ((mid.filter fun p =>
                !(existingIds s Table.documents).contains (Val.vs p.2.id))
            ++ b :: (post.filter fun p =>
                !(existingIds s Table.documents).contains (Val.vs p.2.id))) := by
    simp [List.filter_append, List.filter_cons, hfa, hfb]
  rw [hfilter]
  have h4 := sqlAppend_not_nodup s Table.documents
      (((pre.filter fun p => !(existingIds s Table.documents).contains (Val.vs p.2.id))
          ++ a :: ((mid.filter fun p =>
              !(existingIds s Table.documents).contains (Val.vs p.2.id))
          ++ b :: (post.filter fun p =>
              !(existingIds s Table.documents).contains (Val.vs p.2.id)))).map docRowOf)
      (hnodup _ _ _)
  rw [h4]

/-- C10 (witness): a fresh duplicated id within one batch makes the
documents write fail with IntegrityError against the empty store. -/
theorem C10_fresh_duplicate_aborts_witness :
    ((mkRec "a" "x").id = (mkRec "a" "x").id
        ∧ Val.vs (mkRec "a" "x").id
            ∉ existingIds { documents := [], categories := [] } Table.documents
        ∧ toSQL Table.documents
              (docsFrame ((1, mkRec "a" "x") :: (2, mkRec "a" "x") :: []))
              { documents := [], categories := [] } false
            = ({ documents := [], categories := [] }, some PyErr.integrityError))
      ∧ ((∀ p ∈ ([(Val.vi 0, Val.vs "a")] : List (Val × Val)), ∃ n : Int, p.1 = Val.vi n)
        ∧ (([(5, mkRec "a" "x")] : List (Nat × Record)).filter
              fun p => !dictHasKey [(Val.vi 0, Val.vs "a")] (Val.vs p.2.id))
            = [(5, mkRec "a" "x")]) := by
  have hkeys : ∀ p ∈ ([(Val.vi 0, Val.vs "a")] : List (Val × Val)),
      ∃ n : Int, p.1 = Val.vi n := by
    intro p hp
    rw [List.mem_singleton] at hp
    subst hp
    exact ⟨0, rfl⟩
  exact ⟨⟨rfl, by decide,
      C10_fresh_duplicate_aborts.2 { documents := [], categories := [] } [] [] []
        (1, mkRec "a" "x") (2, mkRec "a" "x") rfl (by decide)⟩,
    hkeys, C10_fresh_duplicate_aborts.1 [(Val.vi 0, Val.vs "a")] [(5, mkRec "a" "x")] hkeys⟩

/-! ## Surrogate keys across the run -/

theorem seqIds_append (m : Nat) : ∀ (z : Int) (n : Nat),
    seqIds z m ++ seqIds (z + m) n = seqIds z (m + n) := by
  induction m with
  | zero => intro z n; simp [seqIds]
  | succ k ih =>
    intro z n
    have h2 : k + 1 + n = (k + n) + 1 := by omega
    rw [h2]
    show z :: (seqIds (z + 1) k ++ seqIds (z + ((k + 1 : Nat) : Int)) n)
        = z :: seqIds (z + 1) (k + n)
    have h1 : z + (((k + 1 : Nat) : Nat) : Int) = (z + 1) + (k : Nat) := by push_cast; ring
    rw [h1, ih (z + 1) n]

theorem mem_seqIds (n : Nat) : ∀ (z x : Int), x ∈ seqIds z n → z ≤ x ∧ x < z + n := by
  induction n with
  | zero => intro z x h; simp [seqIds] at h
  | succ k ih =>
    intro z x h
    simp only [seqIds, List.mem_cons] at h
    rcases h with rfl | h
    · omega
    · have h2 := ih (z + 1) x h
      omega

theorem seqIds_pairwise (n : Nat) : ∀ z : Int, (seqIds z n).Pairwise (· < ·) := by
  induction n with
  | zero => intro z; simp [seqIds]
  | succ k ih =>
    intro z
    simp only [seqIds, List.pairwise_cons]
    exact ⟨fun x hx => (mem_seqIds k (z + 1) x hx).1.trans_lt' (by omega), ih (z + 1)⟩

theorem vi_injective : Function.Injective Val.vi := by
  intro a b h
  injection h

theorem seqIds_nodup (n : Nat) (z : Int) : (seqIds z n).Nodup :=
  (seqIds_pairwise n z).imp ne_of_lt

theorem foldl_max_seqIds (n : Nat) : ∀ (z a : Int), a ≤ z →
    (seqIds z (n + 1)).foldl max a = z + n := by
  induction n with
  | zero => intro z a h; simp [seqIds, max_eq_right h]
  | succ k ih =>
    intro z a h
    show (seqIds (z + 1) (k + 1)).foldl max (max a z) = z + ((k + 1 : Nat) : Int)
    rw [max_eq_right h, ih (z + 1) z (by omega)]
    push_cast
    ring

theorem max?_seqIds (n : Nat) (z : Int) : (seqIds z (n + 1)).max? = some (z + n) := by
  show some ((seqIds (z + 1) n).foldl max z) = some (z + n)
  cases n with
  | zero => simp [seqIds]
  | succ k =>
    rw [foldl_max_seqIds k (z + 1) z (by omega)]
    congr 1
    push_cast
    ring

theorem nextOffset_assignIds (z : Int) (l : List (String × String)) (h : l ≠ []) :
    nextOffset (assignIds z l) = some (z + l.length) := by
  obtain ⟨p, rest, rfl⟩ := List.exists_cons_of_ne_nil h
  rw [nextOffset, assignIds_filterMap_id]
  simp only [List.length_cons]
  rw [max?_seqIds]
  simp only [Option.map_some']
  congr 1
  push_cast
  ring

theorem assignIds_map_valOfIndex (z : Int) (l : List (String × String)) :
    (assignIds z l).map (fun cr => valOfIndex cr.id) = (seqIds z l.length).map Val.vi := by
  induction l generalizing z with
  | nil => rfl
  | cons p rest ih =>
    simp only [assignIds, List.map_cons, seqIds, ih]
    rfl

theorem specTagPairs_ne_nil (rs : List Record) (h : rs ≠ []) :
    specTagPairs pySplitSpace rs ≠ [] := by
  obtain ⟨r, rest, rfl⟩ := List.exists_cons_of_ne_nil h
  simp only [specTagPairs, ne_eq, List.append_eq_nil, List.map_eq_nil_iff, not_and]
  intro h1
  exact absurd h1 (pySplitSpace_ne_nil r.categories)

theorem materialize_catsFrame (cats : List CatRow) :
    materialize (catsFrame cats) true = cats.map catRowOf := by
  simp only [materialize, if_pos, catsFrame, List.zip_map', List.map_map]
  rfl

theorem rowPk_catRowOf (c : CatRow) : rowPk (catRowOf c) = some (valOfIndex c.id) := rfl

theorem filterMap_rowPk_catRows (cats : List CatRow) :
    (cats.map catRowOf).filterMap rowPk = cats.map fun cr => valOfIndex cr.id := by
  induction cats with
  | nil => rfl
  | cons c rest ih => simp [catRowOf, rowPk, List.filterMap_cons, ih, List.lookup]

theorem toSQL_documents_keeps_categories (df : DFrame) (s : Store) (b : Bool) :
    ((toSQL Table.documents df s b).1).categories = s.categories := by
  unfold toSQL
  split
  next s2 h1 =>
    obtain ⟨hs2, -⟩ := sqlAppend_some s Table.documents _ s2 h1
    rw [hs2]; rfl
  next h1 =>
    split
    next => rfl
    next ids h2 =>
      split
      next s2 h3 =>
        obtain ⟨hs2, -⟩ := sqlAppend_some s Table.documents _ s2 h3
        rw [hs2]; rfl
      next => rfl

theorem goodDict_dictInsert (d : List (Val × Val)) (k v : Val)
    (hd : GoodDict d) (hk : ∃ n : Int, k = Val.vi n) : GoodDict (dictInsert d k v) := by
  unfold dictInsert
  split
  · intro p hp
    obtain ⟨q, hq, rfl⟩ := List.mem_map.mp hp
    by_cases hqk : (q.1 == k) = true
    · simp only [hqk, if_pos]
      exact hk
    · simp only [hqk]
      simp only [Bool.false_eq_true, if_false]
      exact hd q hq
  · intro p hp
    rcases List.mem_append.mp hp with h | h
    · exact hd p h
    · rw [List.mem_singleton] at h
      subst h
      exact hk

theorem goodDict_dictUpdate (d kvs : List (Val × Val))
    (hd : GoodDict d) (hkvs : ∀ p ∈ kvs, ∃ n : Int, p.1 = Val.vi n) :
    GoodDict (dictUpdate d kvs) := by
  induction kvs generalizing d with
  | nil => exact hd
  | cons q rest ih =>
    exact ih (dictInsert d q.1 q.2)
      (goodDict_dictInsert d q.1 q.2 hd (hkvs q (List.mem_cons_self _ _)))
      (fun p hp => hkvs p (List.mem_cons_of_mem _ hp))

theorem sqlAppend_categories_assignIds (s : Store) (c : Nat) (l : List (String × String))
    (hcat : catIds s = (seqIds 0 c).map Val.vi) :
    sqlAppend s Table.categories ((assignIds (c : Int) l).map catRowOf)
      = some (setTable s Table.categories
          (s.categories ++ (assignIds (c : Int) l).map catRowOf)) := by
  have hcond : (∀ r ∈ (assignIds (c : Int) l).map catRowOf, (rowPk r).isSome = true)
      ∧ (((assignIds (c : Int) l).map catRowOf).filterMap rowPk).Nodup
      ∧ (∀ v ∈ ((assignIds (c : Int) l).map catRowOf).filterMap rowPk,
          v ∉ existingIds s Table.categories) := by
    refine ⟨?_, ?_, ?_⟩
    · intro r hr
      obtain ⟨cr, -, rfl⟩ := List.mem_map.mp hr
      rfl
    · rw [filterMap_rowPk_catRows, assignIds_map_valOfIndex]
      exact (seqIds_nodup _ _).map vi_injective
    · intro v hv
      rw [filterMap_rowPk_catRows, assignIds_map_valOfIndex] at hv
      obtain ⟨x, hx, rfl⟩ := List.mem_map.mp hv
      intro hmem
      rw [show existingIds s Table.categories = catIds s from rfl, hcat] at hmem
      obtain ⟨y, hy, hxy⟩ := List.mem_map.mp hmem
      have hx2 := mem_seqIds _ _ _ hx
      have hy2 := mem_seqIds _ _ _ hy
      have hyx := vi_injective hxy
      omega
  unfold sqlAppend
  rw [if_pos hcond]
  rfl

theorem processChunk_step (st : RunState) (c : Nat) (chunk : List (Nat × Record))
    (hch : chunk ≠ []) (hinv : Inv st c) :
    ∃ c2 : Nat,
      catIds (processChunk st chunk).1.store = (seqIds 0 c2).map Val.vi
        ∧ ((processChunk st chunk).2 = none → Inv (processChunk st chunk).1 c2) := by
  obtain ⟨hoff, hcat, hdict⟩ := hinv
  have hfilter := goodDict_filter_all st.uniqueIDs chunk hdict
  rcases h1 : toSQL Table.documents (docsFrame chunk) st.store false with ⟨s1, e1⟩
  have hs1cats : s1.categories = st.store.categories := by
    have h := toSQL_documents_keeps_categories (docsFrame chunk) st.store false
    rw [h1] at h
    exact h
  have hs1catIds : catIds s1 = (seqIds 0 c).map Val.vi := by
    show s1.categories.filterMap rowPk = _
    rw [hs1cats]
    exact hcat
  cases e1 with
  | some e =>
    have hpc : processChunk st chunk = ({ st with store := s1 }, some e) := by
      simp only [processChunk, hfilter, h1]
    refine ⟨c, by rw [hpc]; exact hs1catIds, ?_⟩
    rw [hpc]
    intro hco
    exact absurd hco (by simp)
  | none =>
    have hLne : specTagPairs pySplitSpace (chunk.map Prod.snd) ≠ [] :=
      specTagPairs_ne_nil _ (by
        intro hmap
        exact hch (List.map_eq_nil_iff.mp hmap))
    have hcats : mkCategoriesDF st.offset (chunk.map Prod.snd)
        = assignIds (c : Int) (specTagPairs pySplitSpace (chunk.map Prod.snd)) := by
      rw [hoff, mkCategoriesDF_eq_assignIds]
    have happ := sqlAppend_categories_assignIds s1 c
      (specTagPairs pySplitSpace (chunk.map Prod.snd)) hs1catIds
    have htos : toSQL Table.categories
        (catsFrame (assignIds (c : Int) (specTagPairs pySplitSpace (chunk.map Prod.snd))))
        s1 true
        = (setTable s1 Table.categories
            (s1.categories
              ++ (assignIds (c : Int)
                    (specTagPairs pySplitSpace (chunk.map Prod.snd))).map catRowOf),
          none) := by
      unfold toSQL
      rw [materialize_catsFrame, happ]
    have hpc : processChunk st chunk
        = ({ store := setTable s1 Table.categories
                (s1.categories
                  ++ (assignIds (c : Int)
                        (specTagPairs pySplitSpace (chunk.map Prod.snd))).map catRowOf),
             uniqueIDs := dictUpdate st.uniqueIDs
               (chunk.map fun p => (Val.vi (p.1 : Int), Val.vs p.2.id)),
             offset := nextOffset (assignIds (c : Int)
               (specTagPairs pySplitSpace (chunk.map Prod.snd))) },
           none) := by
      simp only [processChunk, hfilter, h1, hcats, htos]
    have hnewIds : catIds (setTable s1 Table.categories
          (s1.categories
            ++ (assignIds (c : Int)
                  (specTagPairs pySplitSpace (chunk.map Prod.snd))).map catRowOf))
        = (seqIds 0 (c + (specTagPairs pySplitSpace (chunk.map Prod.snd)).length)).map
            Val.vi := by
      show (s1.categories
          ++ (assignIds (c : Int)
                (specTagPairs pySplitSpace (chunk.map Prod.snd))).map catRowOf).filterMap
            rowPk = _
      rw [List.filterMap_append]
      rw [show s1.categories.filterMap rowPk = catIds s1 from rfl, hs1catIds,
        filterMap_rowPk_catRows, assignIds_map_valOfIndex, ← List.map_append]
      congr 1
      have hap := seqIds_append c 0 (specTagPairs pySplitSpace (chunk.map Prod.snd)).length
      rw [zero_add] at hap
      exact hap
    refine ⟨c + (specTagPairs pySplitSpace (chunk.map Prod.snd)).length,
      by rw [hpc]; exact hnewIds, ?_⟩
    rw [hpc]
    intro _
    refine ⟨?_, hnewIds, ?_⟩
    · show nextOffset (assignIds (c : Int) (specTagPairs pySplitSpace (chunk.map Prod.snd)))
        = some ((c + (specTagPairs pySplitSpace (chunk.map Prod.snd)).length : Nat) : Int)
      rw [nextOffset_assignIds _ _ hLne]
      congr 1
    · exact goodDict_dictUpdate _ _ hdict (by
        intro p hp
        obtain ⟨q, -, rfl⟩ := List.mem_map.mp hp
        exact ⟨(q.1 : Int), rfl⟩)

theorem runLoop_catIds (chunks : List (List (Nat × Record))) :
    ∀ (st : RunState) (c : Nat), (∀ ch ∈ chunks, ch ≠ []) → Inv st c →
      ∃ c2 : Nat, catIds (runLoop st chunks).1.store = (seqIds 0 c2).map Val.vi := by
  induction chunks with
  | nil => exact fun st c _ hinv => ⟨c, hinv.2.1⟩
  | cons ch rest ih =>
    intro st c hne hinv
    obtain ⟨c2, hcat2, himp⟩ :=
      processChunk_step st c ch (hne ch (List.mem_cons_self _ _)) hinv
    rcases hp : processChunk st ch with ⟨st2, e2⟩
    cases e2 with
    | none =>
      have hinv2 : Inv st2 c2 := by
        have h := himp (by rw [hp])
        rwa [hp] at h
      have hred : runLoop st (ch :: rest) = runLoop st2 rest := by
        simp only [runLoop, hp]
      rw [hred]
      exact ih st2 c2 (fun x hx => hne x (List.mem_cons_of_mem _ hx)) hinv2
    | some e =>
      have hred : runLoop st (ch :: rest) = (st2, some e) := by
        simp only [runLoop, hp]
      rw [hred]
      rw [hp] at hcat2
      exact ⟨c2, hcat2⟩

theorem chunksOfAux_ne_nil {α : Type} (n : Nat) : ∀ (fuel : Nat) (l : List α) (ch : List α),
    ch ∈ chunksOfAux n fuel l → ch ≠ [] := by
  intro fuel
  induction fuel with
  | zero =>
    intro l ch h
    cases l <;> simp [chunksOfAux] at h
  | succ m ih =>
    intro l ch h
    cases l with
    | nil => simp [chunksOfAux] at h
    | cons x xs =>
      simp only [chunksOfAux, List.mem_cons] at h
      rcases h with rfl | h
      · simp
      · exact ih _ ch h

/-- C7: for every input and every chunk size at least 1, the run is
accepted and — whether it completes or aborts mid-run — the surrogate ids
stored in the Category relation are exactly `0, 1, ..., T-1` in insertion
order for some `T`; in particular they are strictly increasing in emission
order and globally unique, regardless of how the input is divided into
batches. -/
theorem C7_surrogate_ids (input : List Record) (cs : Int) (h : 1 ≤ cs) :
    ∃ (store : Store) (e : Option PyErr) (T : Nat),
      main true false cs input = Except.ok (store, e)
        ∧ catIds store = (seqIds 0 T).map Val.vi
        ∧ (catIds store).Pairwise viLt := by
  have hlt : ¬ cs < 1 := by omega
  have hmain : main true false cs input
      = Except.ok ((runLoop { store := { documents := [], categories := [] },
                              uniqueIDs := [], offset := some 0 }
                      (chunksOf cs.toNat input.enum)).1.store,
                   (runLoop { store := { documents := [], categories := [] },
                              uniqueIDs := [], offset := some 0 }
                      (chunksOf cs.toNat input.enum)).2) := by
    unfold main
    rw [if_neg (by simp), if_neg (by simp), if_neg hlt]
  obtain ⟨T, hT⟩ := runLoop_catIds (chunksOf cs.toNat input.enum)
    { store := { documents := [], categories := [] }, uniqueIDs := [], offset := some 0 } 0
    (fun ch hch => chunksOfAux_ne_nil _ _ _ ch hch)
    ⟨rfl, rfl, fun p hp => absurd hp (List.not_mem_nil p)⟩
  refine ⟨_, _, T, hmain, hT, ?_⟩
  rw [hT]
  exact List.Pairwise.map _ (fun a b hab => ⟨a, b, rfl, rfl, hab⟩) (seqIds_pairwise T 0)

/-- C7 (witness): the theorem instantiated at chunk size 1 on a one-record
input. -/
theorem C7_surrogate_ids_witness :
    (1 : Int) ≤ 1
      ∧ ∃ (store : Store) (e : Option PyErr) (T : Nat),
          main true false 1 [mkRec "a" "x"] = Except.ok (store, e)
            ∧ catIds store = (seqIds 0 T).map Val.vi
            ∧ (catIds store).Pairwise viLt :=
  ⟨le_refl 1, C7_surrogate_ids [mkRec "a" "x"] 1 (le_refl 1)⟩

end ArxivDB
